import Mathlib

/-!
A shallow embedding of `src/server/socket.rs` (crate `alow`): the Wayland
server-socket selection, locking, binding and cleanup lifecycle.

Paths are modelled as strings; `PathBuf::join` for the relative names used
here is string concatenation with a `/` separator.  The filesystem and the
operating system's advisory-lock table are modelled as an explicit state
`FS` threaded through every operation.  OS-level failures that do not
depend on the modelled state (an `openat` that fails with a permission or
disk error, a `bind` that fails at the OS level) are modelled by oracle
sets inside `FS`: `openFails` lists the paths at which `openat` fails,
`bindFails` the paths at which `bind` fails.  `io::Error` payloads carried
by the Rust error variants are dropped: only the variant matters to the
control flow.
-/

namespace Alow

/-- The `SocketError` enum of `socket.rs`, payloads dropped. -/
inductive SocketError where
  | NoAvailableSocket
  | RuntimeDirInvalid
  | LockOpen
  | LockAcquire
  | Bind
  | Accept
  deriving DecidableEq, Repr

/-- The filesystem / OS state threaded through the socket operations.
`files` holds the existing files as `(path, mode)` pairs; `locked` holds
the lock-file paths on which some live file descriptor currently holds the
exclusive advisory `flock`; `openFails` and `bindFails` are environment
oracles for OS-level failures; `defaultMode` is the mode the OS gives a
socket file created by `bind`. -/
structure FS where
  files : List (String × Nat)
  locked : List String
  openFails : List String
  bindFails : List String
  defaultMode : Nat
  deriving DecidableEq, Repr

/-- Does a file exist at `p`? -/
def fileExists (p : String) (fs : FS) : Bool :=
  fs.files.any (fun f => f.1 == p)

/-- The mode bits of the file at `p`, when it exists. -/
def modeOf (p : String) (fs : FS) : Option Nat :=
  (fs.files.find? (fun f => f.1 == p)).map (fun f => f.2)

/-- `openat` with `OFlags::CREATE`: creates the file with mode `m` when it
does not exist, otherwise leaves the existing file (and its mode) alone. -/
def createFile (p : String) (m : Nat) (fs : FS) : FS :=
  if fileExists p fs then fs else { fs with files := (p, m) :: fs.files }

/-- `rustix::fs::unlink`, best-effort: removes the file at `p` when present,
does nothing otherwise (the Rust callers discard the result with `let _`). -/
def unlinkFile (p : String) (fs : FS) : FS :=
  { fs with files := fs.files.filter (fun f => f.1 != p) }

/-- Closing a file descriptor that holds the exclusive `flock` on `p`
releases the advisory lock. -/
def releaseLock (p : String) (fs : FS) : FS :=
  { fs with locked := fs.locked.filter (fun q => q != p) }

/-- A successful non-blocking exclusive `flock` on `p`: the lock is now
held. -/
def acquireLock (p : String) (fs : FS) : FS :=
  { fs with locked := p :: fs.locked }

/-- `Mode::RUSR` (owner read). -/
def RUSR : Nat := 0o400

/-- `Mode::WUSR` (owner write). -/
def WUSR : Nat := 0o200

/-- The `WaylandSocket` struct: the `listener` handle is not part of the
modelled state (no claim is about accepted connections) and the `_lock`
file descriptor is represented by membership of `lock_path` in
`FS.locked`. -/
structure WaylandSocket where
  name : String
  bind_path : String
  lock_path : String
  deriving DecidableEq, Repr

/-- `PathBuf::join` for the relative file names used by `socket.rs`. -/
def pathJoin (dir s : String) : String := dir ++ "/" ++ s

/-- `build_paths`: builds `(bind_path, lock_path)` from a directory and a
socket name, as `(dir.join(name), dir.join(name + ".lock"))`. -/
def build_paths (dir name : String) : String × String :=
  (pathJoin dir name, pathJoin dir (name ++ ".lock"))

/-- The bind path `build_paths` derives for `(dir, name)`. -/
def bindPathOf (dir name : String) : String := (build_paths dir name).1

/-- The lock path `build_paths` derives for `(dir, name)`. -/
def lockPathOf (dir name : String) : String := (build_paths dir name).2

/-- `lock_file`: opens or creates the file at `path` with mode
`RUSR | WUSR`, then attempts a non-blocking exclusive `flock` on it. The
call never waits: contention is reported immediately as `LockAcquire`.
On `LockAcquire` the opened descriptor is dropped (no lock was taken), but
the file created by `openat` remains.  The returned `Unit` stands for the
`OwnedFd`; the held lock is recorded in `FS.locked`. -/
def lock_file (path : String) (fs : FS) : Except SocketError Unit × FS :=
  if fs.openFails.contains path then
    (.error .LockOpen, fs)
  else
    let fs1 := createFile path (RUSR ||| WUSR) fs
    if fs1.locked.contains path then
      (.error .LockAcquire, fs1)
    else
      (.ok (), acquireLock path fs1)

/-- `UnixListener::bind`: fails with `Bind` when the OS oracle says so or a
file already exists at the path (`EADDRINUSE`); otherwise creates the
socket file (with the OS default mode) and the listening endpoint. -/
def bindListener (p : String) (fs : FS) : Except SocketError Unit × FS :=
  if fs.bindFails.contains p || fileExists p fs then
    (.error .Bind, fs)
  else
    (.ok (), { fs with files := (p, fs.defaultMode) :: fs.files })

/-- `WaylandSocket::with_name_in_dir`: build paths, lock, remove a leftover
socket file, bind.  When `bind` fails the `_lock` descriptor goes out of
scope before the error is returned, releasing the advisory lock. -/
def with_name_in_dir (dir name : String) (fs : FS) :
    Except SocketError WaylandSocket × FS :=
  let bp := bindPathOf dir name
  let lp := lockPathOf dir name
  match lock_file lp fs with
  | (.error e, fs1) => (.error e, fs1)
  | (.ok _, fs1) =>
    let fs2 := unlinkFile bp fs1
    match bindListener bp fs2 with
    | (.error e, fs3) => (.error e, releaseLock lp fs3)
    | (.ok _, fs3) => (.ok { name := name, bind_path := bp, lock_path := lp }, fs3)

/-- `WaylandSocket::with_candidates_in_dir`: try each candidate name in
order; on `LockAcquire` continue with the next, on success or any other
error stop; `NoAvailableSocket` when the candidates run out. -/
def with_candidates_in_dir (dir : String) (candidates : List String) (fs : FS) :
    Except SocketError WaylandSocket × FS :=
  match candidates with
  | [] => (.error .NoAvailableSocket, fs)
  | name :: rest =>
    match with_name_in_dir dir name fs with
    | (.ok socket, fs1) => (.ok socket, fs1)
    | (.error .LockAcquire, fs1) => with_candidates_in_dir dir rest fs1
    | (.error e, fs1) => (.error e, fs1)

/-- `Path::is_absolute` on Unix: the path has a root, i.e. starts with the
separator character. -/
def is_absolute (p : String) : Bool := p.data.head? == some '/'

/-- `xdg_runtime_dir`: reads `XDG_RUNTIME_DIR` from the environment
(modelled as an explicit `Option String`); fails with `RuntimeDirInvalid`
when unset or not an absolute path.  A pure function of the environment
value: it takes no `FS` because it performs no filesystem access. -/
def xdg_runtime_dir (env : Option String) : Except SocketError String :=
  match env with
  | none => .error .RuntimeDirInvalid
  | some dir => if is_absolute dir then .ok dir else .error .RuntimeDirInvalid

/-- `WaylandSocket::with_candidates`: resolve the runtime directory, then
select among the candidates inside it. -/
def with_candidates (env : Option String) (candidates : List String) (fs : FS) :
    Except SocketError WaylandSocket × FS :=
  match xdg_runtime_dir env with
  | .error e => (.error e, fs)
  | .ok dir => with_candidates_in_dir dir candidates fs

/-- `WaylandSocket::with_name`: resolve the runtime directory, then bind
the one given name inside it. -/
def with_name (env : Option String) (name : String) (fs : FS) :
    Except SocketError WaylandSocket × FS :=
  match xdg_runtime_dir env with
  | .error e => (.error e, fs)
  | .ok dir => with_name_in_dir dir name fs

/-- The candidate sequence of `WaylandSocket::auto`:
`(1..32).map(|i| format!("wayland-{i}"))`. -/
def autoCandidates : List String :=
  (List.range' 1 31).map (fun i => "wayland-" ++ toString i)

/-- `WaylandSocket::auto`: `with_candidates` over the default sequence. -/
def auto (env : Option String) (fs : FS) :
    Except SocketError WaylandSocket × FS :=
  with_candidates env autoCandidates fs

/-- `Drop for WaylandSocket`: unlink `bind_path`, unlink `lock_path`
(each best-effort, result discarded), then the `_lock` field is dropped,
closing its descriptor and releasing the advisory lock.  Rust runs `drop`
exactly once per value; the model reflects this by `dropSocket` consuming
the socket at its single point of disposal. -/
def dropSocket (s : WaylandSocket) (fs : FS) : FS :=
  releaseLock s.lock_path (unlinkFile s.lock_path (unlinkFile s.bind_path fs))

/-! ## Helper lemmas -/

lemma lock_path_eq (dir name : String) :
    lockPathOf dir name = bindPathOf dir name ++ ".lock" := by
  simp [lockPathOf, bindPathOf, build_paths, pathJoin, String.append_assoc]

lemma bindPath_ne_lockPath (dir name : String) :
    bindPathOf dir name ≠ lockPathOf dir name := by
  rw [lock_path_eq]
  intro h
  have h1 := congrArg String.length h.symm
  rw [String.length_append] at h1
  have h5 : ".lock".length = 5 := rfl
  omega

@[simp] lemma createFile_locked (p : String) (m : Nat) (fs : FS) :
    (createFile p m fs).locked = fs.locked := by
  unfold createFile; split <;> rfl

@[simp] lemma createFile_openFails (p : String) (m : Nat) (fs : FS) :
    (createFile p m fs).openFails = fs.openFails := by
  unfold createFile; split <;> rfl

@[simp] lemma createFile_bindFails (p : String) (m : Nat) (fs : FS) :
    (createFile p m fs).bindFails = fs.bindFails := by
  unfold createFile; split <;> rfl

@[simp] lemma unlinkFile_locked (p : String) (fs : FS) :
    (unlinkFile p fs).locked = fs.locked := rfl

@[simp] lemma unlinkFile_openFails (p : String) (fs : FS) :
    (unlinkFile p fs).openFails = fs.openFails := rfl

@[simp] lemma unlinkFile_bindFails (p : String) (fs : FS) :
    (unlinkFile p fs).bindFails = fs.bindFails := rfl

@[simp] lemma releaseLock_files (p : String) (fs : FS) :
    (releaseLock p fs).files = fs.files := rfl

@[simp] lemma releaseLock_openFails (p : String) (fs : FS) :
    (releaseLock p fs).openFails = fs.openFails := rfl

@[simp] lemma releaseLock_bindFails (p : String) (fs : FS) :
    (releaseLock p fs).bindFails = fs.bindFails := rfl

lemma fileExists_unlink_self (p : String) (fs : FS) :
    fileExists p (unlinkFile p fs) = false := by
  simp [fileExists, unlinkFile, List.any_filter]

lemma fileExists_unlink_mono (p q : String) (fs : FS)
    (h : fileExists p fs = false) : fileExists p (unlinkFile q fs) = false := by
  simp only [fileExists, unlinkFile, List.any_filter]
  simp only [fileExists, List.any_eq_false] at h ⊢
  intro x hx
  simpa using fun _ => h x hx

lemma fileExists_createFile_ne (p q : String) (m : Nat) (fs : FS) (h : q ≠ p) :
    fileExists p (createFile q m fs) = fileExists p fs := by
  unfold createFile
  split
  · rfl
  · simp [fileExists, List.any_cons, h]

lemma createFile_of_exists (p : String) (m : Nat) (fs : FS)
    (h : fileExists p fs = true) : createFile p m fs = fs := by
  simp [createFile, h]

lemma contains_false_filter_ne (l : List String) (a : String)
    (h : l.contains a = false) : l.filter (fun q => q != a) = l := by
  rw [List.filter_eq_self]
  intro x hx
  simp only [bne_iff_ne, ne_eq, decide_eq_true_eq]
  intro hxa
  subst hxa
  simp [List.contains_iff_exists_mem_beq] at h
  exact h hx

lemma contains_filter_self (l : List String) (a : String) :
    (l.filter (fun q => q != a)).contains a = false := by
  simp [List.contains_iff_exists_mem_beq, List.mem_filter]

@[simp] lemma fileExists_releaseLock (p q : String) (fs : FS) :
    fileExists p (releaseLock q fs) = fileExists p fs := rfl

@[simp] lemma acquireLock_files (p : String) (fs : FS) :
    (acquireLock p fs).files = fs.files := rfl

@[simp] lemma acquireLock_locked (p : String) (fs : FS) :
    (acquireLock p fs).locked = p :: fs.locked := rfl

@[simp] lemma acquireLock_openFails (p : String) (fs : FS) :
    (acquireLock p fs).openFails = fs.openFails := rfl

@[simp] lemma acquireLock_bindFails (p : String) (fs : FS) :
    (acquireLock p fs).bindFails = fs.bindFails := rfl

@[simp] lemma fileExists_acquireLock (p q : String) (fs : FS) :
    fileExists p (acquireLock q fs) = fileExists p fs := rfl

@[simp] lemma modeOf_acquireLock (p q : String) (fs : FS) :
    modeOf p (acquireLock q fs) = modeOf p fs := rfl

lemma not_mem_of_contains_false {l : List String} {a : String}
    (h : l.contains a = false) : a ∉ l := by
  simpa using h

lemma mem_of_contains_true {l : List String} {a : String}
    (h : l.contains a = true) : a ∈ l := by
  simpa using h

@[simp] lemma modeOf_locked_update (p : String) (fs : FS) (l : List String) :
    modeOf p { fs with locked := l } = modeOf p fs := rfl

@[simp] lemma fileExists_locked_update (p : String) (fs : FS) (l : List String) :
    fileExists p { fs with locked := l } = fileExists p fs := rfl

lemma fileExists_createFile_self (p : String) (m : Nat) (fs : FS) :
    fileExists p (createFile p m fs) = true := by
  unfold createFile
  split
  · rename_i h
    exact h
  · simp [fileExists]

lemma modeOf_createFile_new (p : String) (m : Nat) (fs : FS)
    (h : fileExists p fs = false) : modeOf p (createFile p m fs) = some m := by
  simp [createFile, h, modeOf]

lemma with_name_in_dir_ok (dir name : String) (fs : FS)
    (hopen : fs.openFails.contains (lockPathOf dir name) = false)
    (hfree : fs.locked.contains (lockPathOf dir name) = false)
    (hbind : fs.bindFails.contains (bindPathOf dir name) = false) :
    (with_name_in_dir dir name fs).1 =
      .ok { name := name, bind_path := bindPathOf dir name,
            lock_path := lockPathOf dir name } := by
  simp only [with_name_in_dir, lock_file, bindListener, hopen, Bool.false_eq_true, if_false,
    createFile_locked, hfree, createFile_bindFails, unlinkFile_bindFails, acquireLock_bindFails,
    hbind, fileExists_unlink_self, Bool.or_self]

/-! ## Concrete example states used by witnesses -/

/-- An empty filesystem with no pending OS failures. -/
def fs0 : FS :=
  { files := [], locked := [], openFails := [], bindFails := [], defaultMode := 0o755 }

/-- A state where the lock for name `a` in directory `/r` is already held
by a live holder (its lock file exists and its lock is taken). -/
def fsLocked : FS :=
  { files := [("/r/a.lock", 0o600)], locked := ["/r/a.lock"],
    openFails := [], bindFails := [], defaultMode := 0o755 }

/-- A state where the OS refuses to bind at `/r/a`. -/
def fsBindFail : FS :=
  { files := [], locked := [], openFails := [], bindFails := ["/r/a"],
    defaultMode := 0o755 }

/-- A state with a stale leftover socket file at `/r/a` and no lock held. -/
def fsStale : FS :=
  { files := [("/r/a", 0o755)], locked := [], openFails := [], bindFails := [],
    defaultMode := 0o755 }

/-- The socket produced by binding name `a` in `/r` from `fs0`. -/
def sockA : WaylandSocket :=
  { name := "a", bind_path := "/r/a", lock_path := "/r/a.lock" }

/-- The filesystem state after binding name `a` in `/r` from `fs0`. -/
def fsAfterA : FS :=
  { files := [("/r/a", 0o755), ("/r/a.lock", 0o600)], locked := ["/r/a.lock"],
    openFails := [], bindFails := [], defaultMode := 0o755 }

/-! ## Claim theorems -/

/-- C1: `with_candidates_in_dir` tries the candidates strictly in order; a
`LockAcquire` error on one candidate causes it to continue to the next
candidate (from the state the failed attempt left), any other error is
returned immediately without trying further candidates, and an exhausted
sequence yields `NoAvailableSocket`. -/
theorem with_candidates_in_dir_order (dir : String) (fs : FS) :
    with_candidates_in_dir dir [] fs = (.error .NoAvailableSocket, fs)
  ∧ (∀ name rest fs1, with_name_in_dir dir name fs = (.error .LockAcquire, fs1) →
      with_candidates_in_dir dir (name :: rest) fs = with_candidates_in_dir dir rest fs1)
  ∧ (∀ name rest e fs1, with_name_in_dir dir name fs = (.error e, fs1) →
      e ≠ .LockAcquire →
      with_candidates_in_dir dir (name :: rest) fs = (.error e, fs1))
  ∧ (∀ name rest s fs1, with_name_in_dir dir name fs = (.ok s, fs1) →
      with_candidates_in_dir dir (name :: rest) fs = (.ok s, fs1)) := by
  refine ⟨rfl, ?_, ?_, ?_⟩
  · intro name rest fs1 h
    simp [with_candidates_in_dir, h]
  · intro name rest e fs1 h hne
    cases e <;> first
      | exact absurd rfl hne
      | simp [with_candidates_in_dir, h]
  · intro name rest s fs1 h
    simp [with_candidates_in_dir, h]

/-- Witness for C1: with the lock for `a` held, selection over `[a, b]`
continues with `[b]`. -/
theorem with_candidates_in_dir_order_witness :
    with_candidates_in_dir "/r" ["a", "b"] fsLocked =
      with_candidates_in_dir "/r" ["b"] fsLocked :=
  (with_candidates_in_dir_order "/r" fsLocked).2.1 "a" ["b"] fsLocked rfl

/-- C3: `build_paths` is a pure total function with
`bind_path = dir/name` and `lock_path = dir/name ++ ".lock"`, and a
successfully constructed `WaylandSocket` stores exactly these two derived
paths (the structure is never mutated afterwards). -/
theorem build_paths_pure (dir name : String) :
    build_paths dir name = (dir ++ "/" ++ name, dir ++ "/" ++ name ++ ".lock")
  ∧ (build_paths dir name).2 = (build_paths dir name).1 ++ ".lock"
  ∧ (∀ fs s fs1, with_name_in_dir dir name fs = (.ok s, fs1) →
      s.name = name ∧ s.bind_path = dir ++ "/" ++ name ∧
      s.lock_path = dir ++ "/" ++ name ++ ".lock") := by
  refine ⟨?_, ?_, ?_⟩
  · simp [build_paths, pathJoin, String.append_assoc]
  · simp [build_paths, pathJoin, String.append_assoc]
  · intro fs s fs1 h
    simp only [with_name_in_dir] at h
    split at h
    · simp at h
    · split at h
      · simp at h
      · simp only [Prod.mk.injEq, Except.ok.injEq] at h
        rw [← h.1]
        simp [bindPathOf, lockPathOf, build_paths, pathJoin, String.append_assoc]

/-- Witness for C3: the socket bound from the empty state stores the
derived paths. -/
theorem build_paths_pure_witness :
    sockA.name = "a" ∧ sockA.bind_path = "/r" ++ "/" ++ "a" ∧
    sockA.lock_path = "/r" ++ "/" ++ "a" ++ ".lock" :=
  (build_paths_pure "/r" "a").2.2 fs0 sockA fsAfterA rfl

/-- C9: the default candidate sequence of `auto` is `wayland-1` up to
`wayland-31` in order: names numbered starting at 1 (`wayland-0` is
skipped), of the form `"wayland-" ++ i`, with the candidate count bounded
by the fixed upper bound 32 (the Rust range is `1..32`). -/
theorem auto_candidates_spec :
    autoCandidates.length = 31
  ∧ autoCandidates.length ≤ 32
  ∧ (∀ i (h : i < autoCandidates.length),
      autoCandidates.get ⟨i, h⟩ = "wayland-" ++ toString (i + 1))
  ∧ autoCandidates.contains "wayland-0" = false
  ∧ autoCandidates.contains "wayland-1" = true
  ∧ autoCandidates.contains "wayland-31" = true
  ∧ autoCandidates.contains "wayland-32" = false := by
  exact ⟨rfl, by decide, by decide, rfl, rfl, rfl, rfl⟩

/-- Witness for C9: the first candidate is `wayland-1`. -/
theorem auto_candidates_spec_witness :
    autoCandidates.get ⟨0, by decide⟩ = "wayland-" ++ toString 1 :=
  auto_candidates_spec.2.2.1 0 (by decide)

/-- C2: mutual exclusion per name.  While the lock for `(dir, name)` is
held by a live holder (so its lock file exists), a second construction
attempt for the same name fails with `LockAcquire` and returns the state
exactly unchanged — the first instance's lock and files are untouched.
Conversely a construction can only succeed from a state in which nobody
holds the lock, so at most one live `WaylandSocket` holds it at a time. -/
theorem socket_lock_exclusive (dir name : String) (fs : FS)
    (hheld : fs.locked.contains (lockPathOf dir name) = true)
    (hfile : fileExists (lockPathOf dir name) fs = true)
    (hopen : fs.openFails.contains (lockPathOf dir name) = false) :
    with_name_in_dir dir name fs = (.error .LockAcquire, fs)
  ∧ (∀ fs' s fs1, with_name_in_dir dir name fs' = (.ok s, fs1) →
      fs'.locked.contains (lockPathOf dir name) = false) := by
  constructor
  · simp only [with_name_in_dir, lock_file, hopen, Bool.false_eq_true, if_false,
      createFile_of_exists _ _ _ hfile, hheld, if_true]
  · intro fs' s fs1 h
    simp only [with_name_in_dir] at h
    split at h
    · simp at h
    · rename_i x u fsm heq
      simp only [lock_file, createFile_locked] at heq
      split at heq
      · simp at heq
      · split at heq
        · simp at heq
        · rename_i hcond
          simpa using hcond

/-- Witness for C2: with the lock for `a` held, a second attempt fails
with `LockAcquire` and leaves the state unchanged. -/
theorem socket_lock_exclusive_witness :
    with_name_in_dir "/r" "a" fsLocked = (.error .LockAcquire, fsLocked) :=
  (socket_lock_exclusive "/r" "a" fsLocked rfl rfl rfl).1

/-- C4: when the lock is acquired but the bind fails, `with_name_in_dir`
propagates the `Bind` error and the resulting lock table equals the
original one: the acquired lock is released before the error is returned,
and no `WaylandSocket` value comes into existence. -/
theorem bind_failure_releases_lock (dir name : String) (fs : FS)
    (hopen : fs.openFails.contains (lockPathOf dir name) = false)
    (hfree : fs.locked.contains (lockPathOf dir name) = false)
    (hbind : fs.bindFails.contains (bindPathOf dir name) = true) :
    (with_name_in_dir dir name fs).1 = .error .Bind
  ∧ ((with_name_in_dir dir name fs).2).locked = fs.locked := by
  constructor
  · simp only [with_name_in_dir, lock_file, bindListener, hopen, Bool.false_eq_true, if_false,
      createFile_locked, hfree, createFile_bindFails, unlinkFile_bindFails, acquireLock_bindFails,
      hbind, Bool.true_or, if_true]
  · simp only [with_name_in_dir, lock_file, bindListener, hopen, Bool.false_eq_true, if_false,
      createFile_locked, hfree, createFile_bindFails, unlinkFile_bindFails, acquireLock_bindFails,
      hbind, Bool.true_or, if_true]
    simp [releaseLock, List.filter_cons, acquireLock, contains_false_filter_ne _ _ hfree]

/-- Witness for C4: binding `a` in `/r` with the bind oracle failing
returns `Bind` and leaves the lock table empty. -/
theorem bind_failure_releases_lock_witness :
    (with_name_in_dir "/r" "a" fsBindFail).1 = .error .Bind
  ∧ ((with_name_in_dir "/r" "a" fsBindFail).2).locked = fsBindFail.locked :=
  bind_failure_releases_lock "/r" "a" fsBindFail rfl rfl rfl

/-- C5: dropping a `WaylandSocket` removes both the file at `bind_path`
and the file at `lock_path` and releases the lock (the unlink results are
discarded in the source, so no error surfaces — in the model the removals
are total); afterwards a new selection for the same name succeeds
immediately when the OS oracles report no unrelated failure. -/
theorem drop_cleanup (s : WaylandSocket) (fs : FS) :
    fileExists s.bind_path (dropSocket s fs) = false
  ∧ fileExists s.lock_path (dropSocket s fs) = false
  ∧ (dropSocket s fs).locked.contains s.lock_path = false
  ∧ (∀ dir name, s.bind_path = bindPathOf dir name →
      s.lock_path = lockPathOf dir name →
      fs.openFails.contains (lockPathOf dir name) = false →
      fs.bindFails.contains (bindPathOf dir name) = false →
      (with_name_in_dir dir name (dropSocket s fs)).1 =
        .ok { name := name, bind_path := bindPathOf dir name,
              lock_path := lockPathOf dir name }) := by
  have hlocked : (dropSocket s fs).locked.contains s.lock_path = false := by
    simp only [dropSocket, releaseLock, unlinkFile_locked]
    exact contains_filter_self _ _
  have hbp : fileExists s.bind_path (dropSocket s fs) = false := by
    have h1 := fileExists_unlink_self s.bind_path fs
    have h2 := fileExists_unlink_mono s.bind_path s.lock_path _ h1
    simpa [dropSocket] using h2
  have hlp : fileExists s.lock_path (dropSocket s fs) = false := by
    have h1 := fileExists_unlink_self s.lock_path (unlinkFile s.bind_path fs)
    simpa [dropSocket] using h1
  refine ⟨hbp, hlp, hlocked, ?_⟩
  intro dir name hb hl hopen hbind
  apply with_name_in_dir_ok
  · simpa [dropSocket] using hopen
  · rw [← hl]
    exact hlocked
  · simpa [dropSocket] using hbind

/-- Witness for C5: dropping the socket for `a` and reselecting `a`
succeeds. -/
theorem drop_cleanup_witness :
    (with_name_in_dir "/r" "a" (dropSocket sockA fsAfterA)).1 =
      .ok { name := "a", bind_path := bindPathOf "/r" "a",
            lock_path := lockPathOf "/r" "a" } :=
  (drop_cleanup sockA fsAfterA).2.2.2 "/r" "a" rfl rfl rfl rfl

/-- C6: removal of a pre-existing file at `bind_path` happens only after
the lock is acquired: whenever `with_name_in_dir` fails in the locking
stage (`LockOpen` or `LockAcquire`), the file at `bind_path` is exactly as
before; and a leftover socket file at `bind_path` with no lock held makes
selection succeed (the leftover file is replaced, not a bind failure). -/
theorem stale_unlink_after_lock (dir name : String) (fs : FS) :
    (∀ e fs1, with_name_in_dir dir name fs = (.error e, fs1) →
      e = .LockOpen ∨ e = .LockAcquire →
      fileExists (bindPathOf dir name) fs1 = fileExists (bindPathOf dir name) fs)
  ∧ (fileExists (bindPathOf dir name) fs = true →
     fs.locked.contains (lockPathOf dir name) = false →
     fs.openFails.contains (lockPathOf dir name) = false →
     fs.bindFails.contains (bindPathOf dir name) = false →
     (with_name_in_dir dir name fs).1 =
       .ok { name := name, bind_path := bindPathOf dir name,
             lock_path := lockPathOf dir name }) := by
  constructor
  · intro e fs1 h hdisj
    simp only [with_name_in_dir] at h
    split at h
    · rename_i x err fsm heq
      simp only [Prod.mk.injEq, Except.error.injEq] at h
      obtain ⟨he, hfs⟩ := h
      subst he
      subst hfs
      simp only [lock_file] at heq
      split at heq
      · simp only [Prod.mk.injEq, Except.error.injEq] at heq
        rw [← heq.2]
      · split at heq
        · simp only [Prod.mk.injEq, Except.error.injEq] at heq
          rw [← heq.2]
          exact fileExists_createFile_ne _ _ _ _ (Ne.symm (bindPath_ne_lockPath dir name))
        · simp at heq
    · rename_i x u fsm heq
      split at h
      · rename_i x2 e2 fs3 heq2
        simp only [Prod.mk.injEq, Except.error.injEq] at h
        obtain ⟨he, _⟩ := h
        simp only [bindListener] at heq2
        split at heq2
        · simp only [Prod.mk.injEq, Except.error.injEq] at heq2
          rw [← he, ← heq2.1] at hdisj
          rcases hdisj with hd | hd <;> simp at hd
        · simp at heq2
      · simp at h
  · intro hfile hfree hopen hbind
    exact with_name_in_dir_ok dir name fs hopen hfree hbind

/-- Witness for C6: a leftover socket file at `/r/a` with no lock held
does not prevent selection of name `a`. -/
theorem stale_unlink_after_lock_witness :
    (with_name_in_dir "/r" "a" fsStale).1 =
      .ok { name := "a", bind_path := bindPathOf "/r" "a",
            lock_path := lockPathOf "/r" "a" } :=
  (stale_unlink_after_lock "/r" "a" fsStale).2 rfl rfl rfl rfl

/-- C7: `lock_file` fails with `LockOpen` exactly when the open/create
fails, fails with `LockAcquire` exactly when the lock is already held
(contention is reported immediately — the model is a total function, never
a wait), succeeds otherwise leaving the lock held and the file existing,
and a file it creates carries the owner-only mode `RUSR | WUSR = 0o600`. -/
theorem lock_file_contract (path : String) (fs : FS) :
    ((lock_file path fs).1 = .error .LockOpen ↔ fs.openFails.contains path = true)
  ∧ (fs.openFails.contains path = false →
      ((lock_file path fs).1 = .error .LockAcquire ↔ fs.locked.contains path = true))
  ∧ (fs.openFails.contains path = false → fs.locked.contains path = false →
      (lock_file path fs).1 = .ok () ∧
      ((lock_file path fs).2).locked.contains path = true ∧
      fileExists path ((lock_file path fs).2) = true)
  ∧ (fs.openFails.contains path = false → fileExists path fs = false →
      modeOf path ((lock_file path fs).2) = some (RUSR ||| WUSR))
  ∧ RUSR ||| WUSR = 0o600 := by
  refine ⟨?_, ?_, ?_, ?_, by decide⟩
  · cases hop : fs.openFails.contains path
    · have hop' := not_mem_of_contains_false hop
      cases hlk : fs.locked.contains path
      · have hlk' := not_mem_of_contains_false hlk
        simp [lock_file, hop, hlk, hop', hlk']
      · have hlk' := mem_of_contains_true hlk
        simp [lock_file, hop, hlk, hop', hlk']
    · have hop' := mem_of_contains_true hop
      simp [lock_file, hop, hop']
  · intro hop
    have hop' := not_mem_of_contains_false hop
    cases hlk : fs.locked.contains path
    · have hlk' := not_mem_of_contains_false hlk
      simp [lock_file, hop, hlk, hop', hlk']
    · have hlk' := mem_of_contains_true hlk
      simp [lock_file, hop, hlk, hop', hlk']
  · intro hop hlk
    have hop' := not_mem_of_contains_false hop
    have hlk' := not_mem_of_contains_false hlk
    simp [lock_file, hop, hlk, hop', hlk', fileExists_createFile_self]
  · intro hop hne
    have hop' := not_mem_of_contains_false hop
    cases hlk : fs.locked.contains path
    · have hlk' := not_mem_of_contains_false hlk
      simp [lock_file, hop, hlk, hop', hlk', modeOf_createFile_new _ _ _ hne]
    · have hlk' := mem_of_contains_true hlk
      simp [lock_file, hop, hlk, hop', hlk', modeOf_createFile_new _ _ _ hne]

/-- Witness for C7: from the empty state, locking `/r/a.lock` succeeds,
holds the lock, and creates the lock file with mode `0o600`. -/
theorem lock_file_contract_witness :
    (lock_file "/r/a.lock" fs0).1 = .ok ()
  ∧ ((lock_file "/r/a.lock" fs0).2).locked.contains "/r/a.lock" = true
  ∧ fileExists "/r/a.lock" ((lock_file "/r/a.lock" fs0).2) = true :=
  (lock_file_contract "/r/a.lock" fs0).2.2.1 rfl rfl

/-- C8: an unset or non-absolute runtime-directory environment value makes
`xdg_runtime_dir` fail with `RuntimeDirInvalid` (a pure computation with
no filesystem access), and `with_candidates`, `with_name` and `auto`
propagate it with the filesystem state returned exactly unchanged — no
file is created. -/
theorem runtime_dir_invalid_no_io (fs : FS) (cs : List String) (nm : String)
    (env : Option String)
    (h : env = none ∨ ∃ d, env = some d ∧ is_absolute d = false) :
    xdg_runtime_dir env = .error .RuntimeDirInvalid
  ∧ with_candidates env cs fs = (.error .RuntimeDirInvalid, fs)
  ∧ with_name env nm fs = (.error .RuntimeDirInvalid, fs)
  ∧ auto env fs = (.error .RuntimeDirInvalid, fs) := by
  have hx : xdg_runtime_dir env = .error .RuntimeDirInvalid := by
    rcases h with h | ⟨d, hd, habs⟩
    · subst h
      rfl
    · subst hd
      simp [xdg_runtime_dir, habs]
  refine ⟨hx, ?_, ?_, ?_⟩ <;> simp [with_candidates, with_name, auto, hx]

/-- Witness for C8: a relative directory value is rejected by `auto`
without touching the state. -/
theorem runtime_dir_invalid_no_io_witness :
    auto (some "rel") fs0 = (.error .RuntimeDirInvalid, fs0) :=
  (runtime_dir_invalid_no_io fs0 [] "n" (some "rel")
    (Or.inr ⟨"rel", rfl, rfl⟩)).2.2.2

/-- C10: on the empty candidate sequence, `with_candidates_in_dir` returns
`NoAvailableSocket` with the filesystem state returned exactly as it was:
no lock file opened or created, no file removed, no bind attempted. -/
theorem empty_candidates_no_fs_ops (dir : String) (fs : FS) :
    with_candidates_in_dir dir [] fs = (.error .NoAvailableSocket, fs) := rfl

end Alow
